import Mathlib

/-!
# Verification of the document comparison core (src/main.py)

A shallow embedding of the pure text-processing core of `src/main.py`:
the newline normalizer, the word tokenizer, the difflib-based line/word
diff engine with its side-by-side row renderer and line numbering, the
PDF text extractor's page concatenation, the approval-analysis error
boundary, and the decision-banner extraction in `main`.  Texts are
modelled as `List Char` (Python strings are sequences of code points,
and Python indexing/slicing is by code point, exactly as `List Char`).
-/

/-- A Python string, modelled as its list of Unicode code points. -/
abbrev Text := List Char

/-! ## Newline normalization (src/main.py, normalize_newlines, lines 93-95)

`text.replace("\r\n", "\n").replace("\r", "\n")`.  Python `str.replace`
rewrites non-overlapping occurrences left to right. -/

/-- Model of `s.replace("\r\n", "\n")`: left-to-right non-overlapping replacement. -/
def replaceCRLF : Text → Text
  | [] => []
  | [c] => [c]
  | c :: d :: rest =>
    if c = '\r' ∧ d = '\n' then '\n' :: replaceCRLF rest
    else c :: replaceCRLF (d :: rest)

/-- Model of `s.replace("\r", "\n")`: since the pattern is a single character this is a map. -/
def replaceCR : Text → Text
  | [] => []
  | c :: rest => (if c = '\r' then '\n' else c) :: replaceCR rest

/-- Function `normalize_newlines` from src/main.py lines 93-95. -/
def normalize_newlines (t : Text) : Text := replaceCR (replaceCRLF t)

/-! ## Word tokenizer (src/main.py, tokenize_words, lines 97-99)

`re.findall(r"\w+|[^\w\s]", s, re.UNICODE)`: the regex scanner emits
maximal runs of word characters, emits every other non-whitespace
character as its own single-character token, and skips whitespace.
CPython defines the Unicode `\w` as "alphanumeric or underscore"
(`SRE_UNI_IS_WORD`) and `\s` as the Unicode whitespace property; the
two classes are disjoint.  The Unicode character tables are not
available here, so the scanner below is parametric in the two
character classes: the structural theorems about it hold for every
disjoint classification, in particular for Python's real Unicode
classes, and the ASCII fragments `isWordChar`/`isSpaceChar`
instantiate it for the all-ASCII concrete inputs of the claims, where
the fragment and the full class agree. -/

/-- ASCII fragment of Python's Unicode `\w` (letters, digits, and the
underscore); it agrees with the full class on ASCII characters. -/
def isWordChar (c : Char) : Bool := c.isAlphanum || c = '_'

/-- ASCII fragment of Python's Unicode `\s`; it agrees with the full class
on ASCII characters. -/
def isSpaceChar (c : Char) : Bool :=
  c = ' ' || c = '\t' || c = '\n' || c = '\x0d' || c = '\x0b' || c = '\x0c'

/-- Emit the pending word run (`acc` is reversed): nothing when it is empty. -/
def emitTok (acc : Text) : List Text := if acc.isEmpty then [] else [acc.reverse]

/-- Scanner loop of the tokenizer, parametric in the word-character class
`wOK` (Python's `\w`) and the whitespace class `sOK` (Python's `\s`);
`acc` holds the reversed current run of word characters. -/
def tokWordsGoP (wOK sOK : Char → Bool) (acc : Text) : Text → List Text
  | [] => emitTok acc
  | c :: rest =>
    if wOK c then tokWordsGoP wOK sOK (c :: acc) rest
    else emitTok acc ++
      (if sOK c then tokWordsGoP wOK sOK [] rest else [c] :: tokWordsGoP wOK sOK [] rest)

/-- The tokenizer over an arbitrary word/whitespace classification. -/
def tokenize_wordsP (wOK sOK : Char → Bool) (t : Text) : List Text :=
  tokWordsGoP wOK sOK [] t

/-- Function `tokenize_words` from src/main.py lines 97-99, instantiated at
the ASCII fragments (all concrete inputs of the claims are ASCII, where the
fragments agree with Python's full Unicode classes). -/
def tokenize_words (t : Text) : List Text := tokenize_wordsP isWordChar isSpaceChar t

/-- Token shape predicate over a word/whitespace classification: a token is
a non-empty run of word characters, or a single character that is neither a
word character nor whitespace. -/
def tokenShapeP (wOK sOK : Char → Bool) (t : Text) : Bool :=
  (!t.isEmpty && t.all wOK) ||
    (match t with
     | [c] => !wOK c && !sOK c
     | _ => false)

/-! ## HTML escaping (Python html.escape, used throughout the diff renderer)

`html.escape(s)` with the default `quote=True` replaces the five
characters `&`, `<`, `>`, `"`, `'` by their entities; since `&` is
replaced first and the later replacements introduce no further
occurrences of the other patterns, the sequential replacement is the
same as a single character-by-character map. -/

/-- Entity expansion of one character under `html.escape`. -/
def escapeChar (c : Char) : Text :=
  if c = '&' then ("&amp;".data)
  else if c = '<' then ("&lt;".data)
  else if c = '>' then ("&gt;".data)
  else if c = Char.ofNat 34 then ("&quot;".data)
  else if c = Char.ofNat 39 then ("&#x27;".data)
  else [c]

/-- Python `html.escape` with default quoting. -/
def html_escape (t : Text) : Text := t.flatMap escapeChar

/-! ## difflib.SequenceMatcher (imported by src/main.py)

The repository diffs line lists and token lists with
`difflib.SequenceMatcher(a=..., b=...)` and consumes `get_opcodes()`.
The embedding below follows difflib's documented and implemented
behaviour for sequences without junk: `b2j` junk handling never fires
because no `isjunk` is passed, and the `autojunk` popularity heuristic
only applies to sequences of 200 or more elements, far beyond every
sequence these claims are about.

`find_longest_match(alo, ahi, blo, bhi)` returns the longest block
`a[i:i+k] == b[j:j+k]` with `alo <= i <= i+k <= ahi` and
`blo <= j <= j+k <= bhi`; among the longest blocks it returns the one
with the smallest `i`, then the smallest `j` (scanning order of the
implementation), and `(alo, blo, 0)` when there is no match.  The fold
below scans `i` then `j` in increasing order and replaces the best
candidate only on a strictly longer match, which realizes exactly that
tie-breaking. -/

/-- Run-length loop for `matchLen`, structurally recursive on the number
`ahi - i` of positions left in the `a` window (so the `i < ahi` bound is the
condition `fuel ≠ 0`). -/
def matchLenF {α : Type} [DecidableEq α] (a b : List α) (bhi : Nat) :
    Nat → Nat → Nat → Nat
  | 0, _, _ => 0
  | fuel + 1, i, j =>
    if j < bhi ∧ i < a.length ∧ a.get? i = b.get? j then
      matchLenF a b bhi fuel (i + 1) (j + 1) + 1
    else 0

/-- Length of the common run of `a` starting at `i` and `b` starting at `j`,
clipped to the half-open windows ending at `ahi` and `bhi`. -/
def matchLen {α : Type} [DecidableEq α] (a b : List α) (ahi bhi i j : Nat) : Nat :=
  matchLenF a b bhi (ahi - i) i j

/-- Inner-loop body of `find_longest_match`: measure the candidate block at
`(i, j)` and keep it only when it is strictly longer than the best so far
(so the earliest longest block wins). -/
def flmStep {α : Type} [DecidableEq α] (a b : List α) (ahi bhi i : Nat)
    (best : Nat × Nat × Nat) (j : Nat) : Nat × Nat × Nat :=
  let k := matchLen a b ahi bhi i j
  if best.2.2 < k then (i, j, k) else best

/-- Outer-loop body of `find_longest_match`: scan all start positions `j`
of `b`'s window for a fixed start position `i` of `a`'s window. -/
def flmInner {α : Type} [DecidableEq α] (a b : List α) (ahi blo bhi : Nat)
    (best : Nat × Nat × Nat) (i : Nat) : Nat × Nat × Nat :=
  (List.range' blo (bhi - blo)).foldl (flmStep a b ahi bhi i) best

/-- Model of `SequenceMatcher.find_longest_match` on the window
`a[alo:ahi]` / `b[blo:bhi]`, without junk. -/
def find_longest_match {α : Type} [DecidableEq α] (a b : List α)
    (alo ahi blo bhi : Nat) : Nat × Nat × Nat :=
  (List.range' alo (ahi - alo)).foldl (flmInner a b ahi blo bhi) (alo, blo, 0)

/-- The recursive block collection of `SequenceMatcher.get_matching_blocks`:
take the longest match, then recurse on the region before it and the region
after it.  The extra `fuel` argument only bounds the recursion depth for
termination; each recursive call shrinks `(ahi - alo) + (bhi - blo)` by at
least two, so the initial fuel `a.length + b.length + 1` used in
`get_matching_blocks` is never exhausted.  Without junk no two collected
blocks are adjacent in both sequences (a longest match cannot be extended),
so difflib's final adjacent-block merge is the identity and is omitted. -/
def matchingBlocksF {α : Type} [DecidableEq α] (a b : List α) :
    Nat → Nat → Nat → Nat → Nat → List (Nat × Nat × Nat)
  | 0, _, _, _, _ => []
  | fuel + 1, alo, ahi, blo, bhi =>
    let m := find_longest_match a b alo ahi blo bhi
    if m.2.2 = 0 then []
    else
      (if alo < m.1 ∧ blo < m.2.1 then matchingBlocksF a b fuel alo m.1 blo m.2.1 else []) ++
        m :: (if m.1 + m.2.2 < ahi ∧ m.2.1 + m.2.2 < bhi then
          matchingBlocksF a b fuel (m.1 + m.2.2) ahi (m.2.1 + m.2.2) bhi else [])

/-- Model of `SequenceMatcher.get_matching_blocks`, including the terminal
`(len(a), len(b), 0)` sentinel block. -/
def get_matching_blocks {α : Type} [DecidableEq α] (a b : List α) : List (Nat × Nat × Nat) :=
  matchingBlocksF a b (a.length + b.length + 1) 0 a.length 0 b.length ++
    [(a.length, b.length, 0)]

/-- The four difflib opcode tags. -/
inductive OpTag
  | equal
  | replace
  | delete
  | insert
deriving DecidableEq

/-- Opcode assembly loop of `SequenceMatcher.get_opcodes`: walk the matching
blocks, tagging the gap before each block and the block itself. -/
def opcodesGo : Nat → Nat → List (Nat × Nat × Nat) → List (OpTag × Nat × Nat × Nat × Nat)
  | _, _, [] => []
  | i, j, (ai, bj, size) :: rest =>
    (if i < ai ∧ j < bj then [(OpTag.replace, i, ai, j, bj)]
     else if i < ai then [(OpTag.delete, i, ai, j, bj)]
     else if j < bj then [(OpTag.insert, i, ai, j, bj)]
     else []) ++
      (if size ≠ 0 then [(OpTag.equal, ai, ai + size, bj, bj + size)] else []) ++
      opcodesGo (ai + size) (bj + size) rest

/-- Model of `SequenceMatcher.get_opcodes`. -/
def get_opcodes {α : Type} [DecidableEq α] (a b : List α) :
    List (OpTag × Nat × Nat × Nat × Nat) :=
  opcodesGo 0 0 (get_matching_blocks a b)

/-! ## Word-level diff rendering (src/main.py, word_level_diff, lines 101-128) -/

/-- Opening tag written by `word_level_diff` for deletions. -/
def DEL_OPEN : Text :=
  ("<del style=\"background:#ffe0e0;text-decoration:line-through;color:#b30000\">".data)

/-- Closing tag for deletions. -/
def DEL_CLOSE : Text := ("</del>".data)

/-- Opening tag written by `word_level_diff` for insertions. -/
def INS_OPEN : Text :=
  ("<ins style=\"background:#e0ffe6;text-decoration:none;color:#006600\">".data)

/-- Closing tag for insertions. -/
def INS_CLOSE : Text := ("</ins>".data)

/-- Python slice `l[i:j]` (for `0 <= i <= j`). -/
def pySlice {α : Type} (l : List α) (i j : Nat) : List α := (l.drop i).take (j - i)

/-- Model of `"".join(html.escape(tok) for tok in toks)`. -/
def escTokens (toks : List Text) : Text := (toks.map html_escape).flatten

/-- Rendering of one token opcode inside `word_level_diff`. -/
def renderOp (aToks bToks : List Text) (op : OpTag × Nat × Nat × Nat × Nat) : Text :=
  match op with
  | (OpTag.equal, i1, i2, _, _) => escTokens (pySlice aToks i1 i2)
  | (OpTag.delete, i1, i2, _, _) => DEL_OPEN ++ escTokens (pySlice aToks i1 i2) ++ DEL_CLOSE
  | (OpTag.insert, _, _, j1, j2) => INS_OPEN ++ escTokens (pySlice bToks j1 j2) ++ INS_CLOSE
  | (OpTag.replace, i1, i2, j1, j2) =>
    DEL_OPEN ++ escTokens (pySlice aToks i1 i2) ++ DEL_CLOSE ++
      (INS_OPEN ++ escTokens (pySlice bToks j1 j2) ++ INS_CLOSE)

/-- Function `word_level_diff` from src/main.py lines 101-128: tokenize both lines,
run the token-level SequenceMatcher, and join the rendered opcode segments
(the tokenizer drops inter-token spaces, so the segments join back-to-back). -/
def word_level_diff (aLine bLine : Text) : Text :=
  ((get_opcodes (tokenize_words aLine) (tokenize_words bLine)).map
    (renderOp (tokenize_words aLine) (tokenize_words bLine))).flatten

/-! ## Side-by-side diff rows (src/main.py, side_by_side_diff, lines 130-252)

The function builds a list of `(kind, left_html, right_html)` rows from the
line-level opcodes, then assigns the two line-number columns, then wraps
everything in an HTML table.  The table wrapper is pure string templating
around the rows and is not modelled; the rows with their numbers are. -/

/-- Row kinds used by `side_by_side_diff` ("equal" rows vs "change" rows). -/
inductive RowKind
  | equal
  | change
deriving DecidableEq

/-- Python `"\n"`-split (`str.split` with an explicit separator: splitting
the empty string yields `[""]`). -/
def splitChar (sep : Char) : Text → List Text
  | [] => [[]]
  | c :: rest =>
    match splitChar sep rest with
    | [] => [[c]]
    | h :: t => if c = sep then [] :: h :: t else (c :: h) :: t

/-- The rows emitted for one line-level opcode (the body of the
`for tag, i1, i2, j1, j2 in sm.get_opcodes()` loop). -/
def rowsForOpcode (lines1 lines2 : List Text) (op : OpTag × Nat × Nat × Nat × Nat) :
    List (RowKind × Text × Text) :=
  match op with
  | (OpTag.equal, i1, i2, j1, _) =>
    (List.range (i2 - i1)).map fun k =>
      (RowKind.equal, html_escape ((lines1.get? (i1 + k)).getD []),
        html_escape ((lines2.get? (j1 + k)).getD []))
  | (_, i1, i2, j1, j2) =>
    let leftBlock := pySlice lines1 i1 i2
    let rightBlock := pySlice lines2 j1 j2
    (List.range (max leftBlock.length rightBlock.length)).map fun idx =>
      let leftLine := (leftBlock.get? idx).getD []
      let rightLine := (rightBlock.get? idx).getD []
      if leftLine = rightLine then
        (RowKind.equal, html_escape leftLine, html_escape rightLine)
      else
        (RowKind.change, word_level_diff leftLine rightLine,
          word_level_diff leftLine rightLine)

/-- The full row list of `side_by_side_diff` before numbering. -/
def diff_rows (text1 text2 : Text) : List (RowKind × Text × Text) :=
  let lines1 := splitChar '\n' (normalize_newlines text1)
  let lines2 := splitChar '\n' (normalize_newlines text2)
  ((get_opcodes lines1 lines2).map (rowsForOpcode lines1 lines2)).flatten

/-- One rendered table row: kind, the two number cells (`none` renders as a
blank cell, exactly Python's `""`), and the two content cells. -/
structure DiffRow where
  kind : RowKind
  leftNum : Option Nat
  left : Text
  rightNum : Option Nat
  right : Text
deriving DecidableEq

/-- The numbering loop of `side_by_side_diff` (src/main.py lines 213-225):
each side's counter starts at 1 and advances exactly on rows whose rendered
content cell for that side is non-empty. -/
def numberRowsGo : Nat → Nat → List (RowKind × Text × Text) → List DiffRow
  | _, _, [] => []
  | l, r, (k, lh, rh) :: rest =>
    { kind := k,
      leftNum := if lh.isEmpty then none else some l,
      left := lh,
      rightNum := if rh.isEmpty then none else some r,
      right := rh } ::
      numberRowsGo (if lh.isEmpty then l else l + 1) (if rh.isEmpty then r else r + 1) rest

/-- Function `side_by_side_diff` from src/main.py lines 130-252, modelled as the list
of fully numbered table rows (the surrounding HTML table markup is fixed
templating around this list). -/
def side_by_side_diff (text1 text2 : Text) : List DiffRow :=
  numberRowsGo 1 1 (diff_rows text1 text2)

/-! ## PDF text extraction (src/main.py, extract_text_from_pdf, lines 11-18)

The loop `text += (page.extract_text() or "") + "\n"` over `pdf_reader.pages`.
A page is modelled by what `page.extract_text()` returns: `some s` for a
string, `none` for the `None` that some PDFs produce. -/

/-- Function `extract_text_from_pdf` from src/main.py lines 11-18, as a function of
the per-page extraction results. -/
def extract_text_from_pdf (pages : List (Option Text)) : Text :=
  pages.foldl (fun text p => text ++ (p.getD []) ++ [('\n')]) []

/-! ## Approval analysis boundary (src/main.py, analyze_document_approval,
lines 49-89)

The external text-completion call is modelled as a function from the
templated prompt to either a response (its list of choice contents — the
code reads `response.choices[0].message.content`) or the string of a raised
exception.  The `try`/`except Exception` block catches every failure,
including the `IndexError` a response with no choices would raise at
`choices[0]`, and returns `f"Error analyzing documents: {str(e)}"`. -/

/-- The f-string template of `analyze_document_approval` (lines 50-76), with
both documents truncated to their first 3000 characters. -/
def approvalPrompt (circular_text proposal_text : Text) : Text :=
  ("\n    You are an expert reviewer. Document 1 is an official circular (policy/guideline/communication). Document 2 is a proposal that claims to be based on Document 1.\n\n    Your task:\n    1. Carefully read both documents.\n    2. Decide if the proposal (Document 2) can be approved strictly on the basis of the circular (Document 1).\n    3. If it can be approved, state \"APPROVED\" and briefly explain why.\n    4. If it cannot be approved, state \"REJECTED\" and clearly list the reasons for rejection, referencing specific requirements or gaps.\n\n    Document 1 (Circular):\n    ".data) ++
    circular_text.take 3000 ++
    ("\n\n    Document 2 (Proposal):\n    ".data) ++
    proposal_text.take 3000 ++
    ("\n\n    Please provide your answer in this format:\n    Decision: APPROVED/REJECTED\n\n    Explanation:\n    (Your detailed reasoning here)\n\n    Key Points Analysis:\n    - Compliance with circular requirements\n    - Missing elements (if any)\n    - Alignment with stated policies\n    - Recommendations for improvement (if rejected)\n    ".data)

/-- Function `analyze_document_approval` from src/main.py lines 49-89.  `call` is the
external completion client; `Except.error e` models a raised exception whose
`str(e)` is `e`, and the returned value on success is the list of choice
message contents. -/
def analyze_document_approval (call : Text → Except Text (List Text))
    (circular_text proposal_text : Text) : Text :=
  match call (approvalPrompt circular_text proposal_text) with
  | Except.ok choices =>
    match choices with
    | [] => ("Error analyzing documents: list index out of range".data)
    | content :: _ => content
  | Except.error e => ("Error analyzing documents: ".data) ++ e

/-! ## Decision banner extraction (src/main.py, main, lines 337-343)

After the analysis the UI shows an APPROVED banner when the substring
`"APPROVED"` occurs in `analysis_result.upper()`, else a REJECTED banner
when `"REJECTED"` occurs, else no banner at all. -/

/-- Python `needle in hay` on strings: substring containment. -/
def substrIn (needle : Text) : Text → Bool
  | [] => needle.isEmpty
  | c :: rest => (needle.isPrefixOf (c :: rest)) || substrIn needle rest

/-- Python `str.upper()` restricted to its ASCII action (`Char.toUpper`
uppercases exactly the ASCII letters). -/
def pyUpper (t : Text) : Text := t.map Char.toUpper

/-- The banner decision of `main` (src/main.py lines 339-342): `some true`
for the APPROVED banner, `some false` for the REJECTED banner, `none` when
neither substring occurs and no banner is shown. -/
def decisionBanner (analysis_result : Text) : Option Bool :=
  if substrIn ("APPROVED".data) (pyUpper analysis_result) then some true
  else if substrIn ("REJECTED".data) (pyUpper analysis_result) then some false
  else none

/-- Formalization of claim C8's description (not of the code): scan the
response for the first line starting with the literal label `"Decision:"`
and return the text after the separator; `none` when no such line exists. -/
def specDecisionLabel (analysis_result : Text) : Option Text :=
  (splitChar '\n' analysis_result).findSome? fun line =>
    if ("Decision:".data).isPrefixOf line then some (line.drop 9) else none

/-! ## Chunker (spec §4.3)

Modelled from the spec: src/main.py contains no chunker (the spec's §4.3
Chunker has no counterpart under src/); the definitions below follow the
spec's words: split the normalized text on paragraph boundaries (the
double-newline separator), accumulate paragraphs greedily into chunks
whose joined length stays within the budget, never splitting a paragraph
(an oversized paragraph forms its own chunk), and rejoin each chunk with
the paragraph separator. -/

/-- The paragraph separator. -/
def paraSep : Text := "\n\n".data

/-- Python `text.split("\n\n")`: left-to-right non-overlapping split. -/
def splitParas : Text → List Text
  | [] => [[]]
  | [c] => [[c]]
  | c :: d :: rest =>
    if c = '\n' ∧ d = '\n' then [] :: splitParas rest
    else
      match splitParas (d :: rest) with
      | [] => [[c]]
      | h :: t => (c :: h) :: t

/-- Python `sep.join(parts)`. -/
def joinSep (sep : Text) : List Text → Text
  | [] => []
  | [x] => x
  | x :: y :: rest => x ++ sep ++ joinSep sep (y :: rest)

/-- Modelled from the spec: greedy paragraph grouping of the Chunker.
`curRev` is the reversed current group, `curLen` the length of its
separator-joined text; a paragraph joins the current chunk only when the
joined length stays within the budget. -/
def chunkGo (budget : Nat) (curRev : List Text) (curLen : Nat) : List Text → List (List Text)
  | [] => [curRev.reverse]
  | p :: ps =>
    if curLen + 2 + p.length ≤ budget then
      chunkGo budget (p :: curRev) (curLen + 2 + p.length) ps
    else
      curRev.reverse :: chunkGo budget [p] p.length ps

/-- Modelled from the spec: the Chunker of spec §4.3 (absent from src/):
split on paragraph boundaries, group greedily within the budget, and join
each group back with the paragraph separator. -/
def chunk_text (budget : Nat) (t : Text) : List Text :=
  match splitParas t with
  | [] => []
  | p :: ps => (chunkGo budget [p] p.length ps).map (joinSep paraSep)

/-! ## Concrete documents used by the claims -/

/-- Document A of the worked diff example. -/
def docA : Text := "Hello world\nFoo bar".data

/-- Document B of the worked diff example. -/
def docB : Text := "Hello there\nFoo bar".data

/-- The rendered content of the first (changed) row of the worked example:
"Hello" plain, "world" wrapped as a deletion, "there" wrapped as an
insertion, with no space between the segments. -/
def hlRow1 : Text :=
  ("Hello".data) ++ DEL_OPEN ++ ("world".data) ++ DEL_CLOSE ++
    INS_OPEN ++ ("there".data) ++ INS_CLOSE

/-- The rendered content of the single row diffing "" against "a". -/
def insA : Text := INS_OPEN ++ ("a".data) ++ INS_CLOSE

/-- The single table row produced by diffing "" against "a". -/
def c1Row : DiffRow := ⟨RowKind.change, some 1, insA, some 1, insA⟩

/-- A model response that names a decision without a "Decision:" line. -/
def c8Input : Text := "The proposal is APPROVED because it satisfies the circular.".data

/-! # Theorems -/

/-! ## Newline normalization: claim C5 -/

theorem replaceCR_no_cr (t : Text) : '\r' ∉ replaceCR t := by
  induction t with
  | nil => simp [replaceCR]
  | cons c rest ih =>
    simp only [replaceCR, List.mem_cons]
    rintro (h | h)
    · split at h
      · exact absurd h.symm (by decide)
      · exact absurd h.symm (by assumption)
    · exact ih h

theorem replaceCRLF_of_no_cr (t : Text) (h : '\r' ∉ t) : replaceCRLF t = t := by
  induction t with
  | nil => rfl
  | cons c rest ih =>
    cases rest with
    | nil => rfl
    | cons d rest' =>
      have hc : c ≠ '\r' := fun hc => h (hc ▸ List.mem_cons_self c _)
      have hrest : '\r' ∉ d :: rest' := fun hm => h (List.mem_cons_of_mem c hm)
      simp only [replaceCRLF]
      rw [if_neg (fun hcd => hc hcd.1), ih hrest]

theorem replaceCR_of_no_cr (t : Text) (h : '\r' ∉ t) : replaceCR t = t := by
  induction t with
  | nil => rfl
  | cons c rest ih =>
    have hc : c ≠ '\r' := fun hc => h (hc ▸ List.mem_cons_self c _)
    have hrest : '\r' ∉ rest := fun hm => h (List.mem_cons_of_mem c hm)
    simp only [replaceCR, if_neg hc, ih hrest]

/-- Claim C5: `normalize_newlines` is idempotent: a second application is the
identity, because the first application leaves no carriage return behind. -/
theorem C5_normalize_newlines_idempotent (t : Text) :
    normalize_newlines (normalize_newlines t) = normalize_newlines t := by
  unfold normalize_newlines
  rw [replaceCRLF_of_no_cr _ (replaceCR_no_cr _), replaceCR_of_no_cr _ (replaceCR_no_cr _)]

/-! ## Tokenizer: claim C4 -/

theorem isWordChar_not_space {c : Char} (h : isWordChar c = true) : isSpaceChar c = false := by
  by_contra hs
  have hs' : isSpaceChar c = true := by
    cases hc : isSpaceChar c
    · exact absurd hc hs
    · rfl
  simp only [isSpaceChar, Bool.or_eq_true, decide_eq_true_eq] at hs'
  rcases hs' with ((((h1 | h1) | h1) | h1) | h1) | h1 <;>
    (subst h1; exact absurd h (by decide))

theorem emitTok_all {wOK sOK : Char → Bool} {acc : Text} (hacc : acc.all wOK = true) :
    (emitTok acc).all (tokenShapeP wOK sOK) = true := by
  unfold emitTok
  by_cases hae : acc = []
  · subst hae; simp
  · have he : acc.isEmpty = false := by simpa [List.isEmpty_iff] using hae
    simp only [he, Bool.false_eq_true, if_false, List.all_cons, List.all_nil, Bool.and_true]
    simp only [tokenShapeP, Bool.or_eq_true, Bool.and_eq_true]
    left
    constructor
    · simp [List.isEmpty_iff, hae]
    · simpa using hacc

theorem emitTok_flatten (acc : Text) : (emitTok acc).flatten = acc.reverse := by
  unfold emitTok
  by_cases hae : acc = []
  · subst hae; simp
  · have he : acc.isEmpty = false := by simpa [List.isEmpty_iff] using hae
    simp [he]

theorem tokWordsGoP_spec (wOK sOK : Char → Bool)
    (hdisj : ∀ c, wOK c = true → sOK c = false) (s : Text) :
    ∀ acc : Text, acc.all wOK = true →
      ((tokWordsGoP wOK sOK acc s).all (tokenShapeP wOK sOK) = true ∧
        (tokWordsGoP wOK sOK acc s).flatten = acc.reverse ++ s.filter (fun c => !sOK c)) := by
  induction s with
  | nil =>
    intro acc hacc
    exact ⟨emitTok_all hacc, by simp [tokWordsGoP, emitTok_flatten]⟩
  | cons c rest ih =>
    intro acc hacc
    obtain ⟨h1, h2⟩ := ih [] rfl
    by_cases hw : wOK c = true
    · obtain ⟨g1, g2⟩ := ih (c :: acc) (by simp [List.all_cons, hw, hacc])
      refine ⟨by simpa [tokWordsGoP, hw] using g1, ?_⟩
      simp [tokWordsGoP, hw, g2, List.filter_cons, hdisj c hw]
    · have hw' : wOK c = false := by
        cases h : wOK c
        · rfl
        · exact absurd h hw
      by_cases hs : sOK c = true
      · refine ⟨?_, ?_⟩
        · simp [tokWordsGoP, hw', hs, List.all_append, emitTok_all hacc, h1]
        · simp [tokWordsGoP, hw', hs, List.flatten_append, emitTok_flatten, h2,
            List.filter_cons]
      · have hs' : sOK c = false := by
          cases h : sOK c
          · rfl
          · exact absurd h hs
        refine ⟨?_, ?_⟩
        · have hsh : tokenShapeP wOK sOK [c] = true := by simp [tokenShapeP, hw', hs']
          simp [tokWordsGoP, hw', hs', List.all_append, emitTok_all hacc, h1, hsh]
        · simp [tokWordsGoP, hw', hs', List.flatten_append, emitTok_flatten, h2,
            List.filter_cons]

theorem tokWordsGoP_absorb (wOK sOK : Char → Bool) :
    ∀ (w acc rest : Text), w.all wOK = true →
      tokWordsGoP wOK sOK acc (w ++ rest) = tokWordsGoP wOK sOK (w.reverse ++ acc) rest := by
  intro w
  induction w with
  | nil => intro acc rest _; simp
  | cons c w ih =>
    intro acc rest hall
    have hc : wOK c = true := by
      simp only [List.all_cons, Bool.and_eq_true] at hall
      exact hall.1
    have hw : w.all wOK = true := by
      simp only [List.all_cons, Bool.and_eq_true] at hall
      exact hall.2
    show tokWordsGoP wOK sOK acc (c :: (w ++ rest)) =
      tokWordsGoP wOK sOK ((c :: w).reverse ++ acc) rest
    simp only [tokWordsGoP, hc, if_true]
    rw [ih (c :: acc) rest hw]
    rw [show (c :: w).reverse ++ acc = w.reverse ++ (c :: acc) by simp]

/-- Claim C4 (counterexample): the underscore is not a letter or digit, yet the
tokenizer treats it as a word character: `"a_b"` tokenizes to the single
three-character token `"a_b"`, not to three single-character tokens as the
claim's "exactly the Unicode letters and digits" would require. -/
theorem C4_counterexample :
    tokenize_words ("a_b".data) = [("a_b".data)] ∧ Char.isAlphanum '_' = false := by
  constructor
  · rfl
  · rfl

/-- Claim C4 (amended): for every word/whitespace character classification
with disjoint classes — in particular Python's Unicode `\w` (letters,
digits, and the underscore) and `\s` — the tokenizer satisfies: (a) every
token is a non-empty run of word characters or a single character that is
neither a word character nor whitespace, (b) concatenating all tokens
recovers the input with its whitespace removed, and (c) word runs are
maximal: a non-empty word run at the start of the input that is followed
by nothing or by a non-word character is emitted whole as one token. -/
theorem C4_amended_tokenize_shape (wOK sOK : Char → Bool)
    (hdisj : ∀ c, wOK c = true → sOK c = false) :
    (∀ s : Text, (tokenize_wordsP wOK sOK s).all (tokenShapeP wOK sOK) = true ∧
      (tokenize_wordsP wOK sOK s).flatten = s.filter (fun c => !sOK c)) ∧
      (∀ w rest : Text, w ≠ [] → w.all wOK = true →
        (rest = [] ∨ ∃ c rest2, rest = c :: rest2 ∧ wOK c = false) →
        ∃ ts, tokenize_wordsP wOK sOK (w ++ rest) = w :: ts) := by
  constructor
  · intro s
    have h := tokWordsGoP_spec wOK sOK hdisj s [] rfl
    simpa [tokenize_wordsP] using h
  · intro w rest hne hall hrest
    have habs := tokWordsGoP_absorb wOK sOK w [] rest hall
    have hemit : emitTok w.reverse = [w] := by
      unfold emitTok
      have hrev : w.reverse.isEmpty = false := by
        simp [List.isEmpty_iff, hne]
      simp [hrev]
    rcases hrest with hrest | ⟨c, rest2, hrest, hc⟩
    · subst hrest
      refine ⟨[], ?_⟩
      unfold tokenize_wordsP
      rw [habs]
      simp only [tokWordsGoP, List.append_nil]
      rw [hemit]
    · subst hrest
      unfold tokenize_wordsP
      rw [habs]
      simp only [tokWordsGoP, List.append_nil, hc, Bool.false_eq_true, if_false]
      rw [hemit]
      exact ⟨_, rfl⟩

/-- Witness for `C4_amended_tokenize_shape` at the ASCII classification (its
disjointness discharged by `isWordChar_not_space`) and the concrete input
`"a_b"`. -/
theorem C4_amended_tokenize_shape_witness :
    (tokenize_wordsP isWordChar isSpaceChar ("a_b".data)).all
        (tokenShapeP isWordChar isSpaceChar) = true ∧
      (tokenize_wordsP isWordChar isSpaceChar ("a_b".data)).flatten =
        ("a_b".data).filter (fun c => !isSpaceChar c) :=
  (C4_amended_tokenize_shape isWordChar isSpaceChar
    (fun _ h => isWordChar_not_space h)).1 ("a_b".data)

/-! ## The worked diff example: claim C2 -/

/-- Claim C2 (counterexample): on the worked example the first row is indeed
a changed row and the second an equal row, but no content cell of any row
contains the substring `"Hello "`: the tokenizer discards the space after
"Hello", so the space does not render (plain or otherwise) in the changed
row. -/
theorem C2_counterexample :
    ((side_by_side_diff docA docB).map DiffRow.kind = [RowKind.change, RowKind.equal]) ∧
      ((side_by_side_diff docA docB).all
        (fun row => !substrIn ("Hello ".data) row.left) = true) := by
  decide

set_option maxRecDepth 100000 in
/-- Claim C2 (amended): the diff of the worked example is exactly two rows:
a changed row rendering `"Hello"` plain immediately followed by `"world"`
marked deleted and `"there"` marked inserted (the inter-token space is
dropped, both cells carry the same combined rendering), and an equal row
with `"Foo bar"` on both sides. -/
theorem C2_amended_worked_example :
    side_by_side_diff docA docB =
      [⟨RowKind.change, some 1, hlRow1, some 1, hlRow1⟩,
       ⟨RowKind.equal, some 2, ("Foo bar".data), some 2, ("Foo bar".data)⟩] := by
  decide

/-! ## Line numbering: claim C1 -/

/-- Claim C1 (counterexample): diffing the empty document against the
non-empty document `"a"` yields one changed row whose left line number is
`1`, not blank — both content cells of a changed row carry the same
non-empty combined rendering, so the left counter advances too. -/
theorem C1_counterexample :
    (("a".data) ≠ ([] : Text)) ∧
      ((side_by_side_diff ([]) ("a".data)).map DiffRow.leftNum = [some 1]) ∧
      ((side_by_side_diff ([]) ("a".data)).map DiffRow.rightNum = [some 1]) := by
  decide

/-- Full characterization of the numbering loop: the row at position `n`
keeps its kind and content cells, and each side's number cell is blank
exactly when that side's content cell is empty, and otherwise continues the
count of earlier rows with non-empty content on that side. -/
theorem numberRowsGo_get (rows : List (RowKind × Text × Text)) : ∀ l r n : Nat,
    (numberRowsGo l r rows).get? n = (rows.get? n).map fun q =>
      { kind := q.1,
        leftNum := if q.2.1.isEmpty then none
          else some (l + ((rows.take n).filter (fun q2 => !q2.2.1.isEmpty)).length),
        left := q.2.1,
        rightNum := if q.2.2.isEmpty then none
          else some (r + ((rows.take n).filter (fun q2 => !q2.2.2.isEmpty)).length),
        right := q.2.2 } := by
  induction rows with
  | nil => intro l r n; simp [numberRowsGo]
  | cons q rest ih =>
    intro l r n
    obtain ⟨k, lh, rh⟩ := q
    cases n with
    | zero => simp [numberRowsGo]
    | succ n =>
      simp only [numberRowsGo, List.get?_cons_succ, List.take_succ_cons, List.filter_cons]
      rw [ih]
      cases hq : rest.get? n with
      | none => simp
      | some p =>
        simp only [Option.map_some']
        have hL : (if lh.isEmpty then l else l + 1) +
            ((rest.take n).filter (fun q2 => !q2.2.1.isEmpty)).length =
            l + (if (!lh.isEmpty) = true then
              ((k, lh, rh) :: (rest.take n).filter (fun q2 => !q2.2.1.isEmpty)).length
              else ((rest.take n).filter (fun q2 => !q2.2.1.isEmpty)).length) := by
          by_cases h1 : lh.isEmpty
          · simp [h1]
          · have h1' : lh.isEmpty = false := by
              cases hx : lh.isEmpty
              · rfl
              · exact absurd hx h1
            simp [h1', List.length_cons]
            omega
        have hR : (if rh.isEmpty then r else r + 1) +
            ((rest.take n).filter (fun q2 => !q2.2.2.isEmpty)).length =
            r + (if (!rh.isEmpty) = true then
              ((k, lh, rh) :: (rest.take n).filter (fun q2 => !q2.2.2.isEmpty)).length
              else ((rest.take n).filter (fun q2 => !q2.2.2.isEmpty)).length) := by
          by_cases h1 : rh.isEmpty
          · simp [h1]
          · have h1' : rh.isEmpty = false := by
              cases hx : rh.isEmpty
              · rfl
              · exact absurd hx h1
            simp [h1', List.length_cons]
            omega
        congr 1
        simp only [DiffRow.mk.injEq, true_and, and_true]
        constructor
        · by_cases h2 : p.2.1.isEmpty
          · simp [h2]
          · have h2' : p.2.1.isEmpty = false := by
              cases hx : p.2.1.isEmpty
              · rfl
              · exact absurd hx h2
            simp only [h2', Bool.false_eq_true, if_false]
            rw [hL, apply_ite List.length]
        · by_cases h2 : p.2.2.isEmpty
          · simp [h2]
          · have h2' : p.2.2.isEmpty = false := by
              cases hx : p.2.2.isEmpty
              · rfl
              · exact absurd hx h2
            simp only [h2', Bool.false_eq_true, if_false]
            rw [hR, apply_ite List.length]

/-- Claim C1 (amended): each side's line number is assigned independently
and sequentially starting at 1, incrementing exactly on rows where that
side's rendered content cell is non-empty and blank otherwise.  Because a
changed row carries the same combined rendering in both content cells, a
purely inserted line can advance the left counter as well:
`C1_counterexample` exhibits the instance "" versus "a", whose single
changed row is numbered 1 on both sides rather than blank on the left. -/
theorem C1_amended_numbering (t1 t2 : Text) (n : Nat) (row : DiffRow)
    (h : (side_by_side_diff t1 t2).get? n = some row) :
    (row.leftNum = if row.left.isEmpty then none
        else some (1 + (((diff_rows t1 t2).take n).filter
          (fun q => !q.2.1.isEmpty)).length)) ∧
      (row.rightNum = if row.right.isEmpty then none
        else some (1 + (((diff_rows t1 t2).take n).filter
          (fun q => !q.2.2.isEmpty)).length)) := by
  rw [side_by_side_diff, numberRowsGo_get] at h
  cases hq : (diff_rows t1 t2).get? n with
  | none => rw [hq] at h; simp at h
  | some p =>
    rw [hq] at h
    simp only [Option.map_some', Option.some.injEq] at h
    subst h
    exact ⟨rfl, rfl⟩

/-- Witness for `C1_amended_numbering` at the concrete diff of "" against
"a": the single row is the changed row `c1Row`, whose cells are non-empty,
so both number cells are `some 1`. -/
theorem C1_amended_numbering_witness :
    (c1Row.leftNum = if c1Row.left.isEmpty then none
        else some (1 + (((diff_rows ([]) ("a".data)).take 0).filter
          (fun q => !q.2.1.isEmpty)).length)) ∧
      (c1Row.rightNum = if c1Row.right.isEmpty then none
        else some (1 + (((diff_rows ([]) ("a".data)).take 0).filter
          (fun q => !q.2.2.isEmpty)).length)) :=
  C1_amended_numbering ([]) ("a".data) 0 c1Row (by decide)


/-! ## Identical inputs: claim C3 -/

theorem matchLenF_le {α : Type} [DecidableEq α] (a b : List α) (bhi : Nat) :
    ∀ (fuel i j : Nat), matchLenF a b bhi fuel i j ≤ fuel := by
  intro fuel
  induction fuel with
  | zero => intro i j; exact Nat.le_refl 0
  | succ fuel ih =>
    intro i j
    show (if j < bhi ∧ i < a.length ∧ a.get? i = b.get? j then
        matchLenF a b bhi fuel (i + 1) (j + 1) + 1
      else 0) ≤ fuel + 1
    split
    · exact Nat.succ_le_succ (ih (i + 1) (j + 1))
    · exact Nat.zero_le _

theorem matchLen_le {α : Type} [DecidableEq α] (a b : List α) (ahi bhi i j : Nat) :
    matchLen a b ahi bhi i j ≤ ahi - i :=
  matchLenF_le a b bhi (ahi - i) i j

theorem matchLenF_self {α : Type} [DecidableEq α] (a : List α) :
    ∀ fuel i : Nat, fuel = a.length - i → matchLenF a a a.length fuel i i = fuel := by
  intro fuel
  induction fuel with
  | zero => intro i _; rfl
  | succ fuel ih =>
    intro i hfuel
    have hi : i < a.length := by omega
    show (if i < a.length ∧ i < a.length ∧ a.get? i = a.get? i then
        matchLenF a a a.length fuel (i + 1) (i + 1) + 1
      else 0) = fuel + 1
    rw [if_pos ⟨hi, hi, rfl⟩, ih (i + 1) (by omega)]

theorem matchLen_self_zero {α : Type} [DecidableEq α] (a : List α) :
    matchLen a a a.length a.length 0 0 = a.length := by
  unfold matchLen
  rw [Nat.sub_zero]
  exact matchLenF_self a a.length 0 (by omega)

theorem flmStep_keep {α : Type} [DecidableEq α] (a b : List α) (ahi bhi i : Nat)
    (best : Nat × Nat × Nat) (h : ∀ j, matchLen a b ahi bhi i j ≤ best.2.2) :
    ∀ js : List Nat, js.foldl (flmStep a b ahi bhi i) best = best := by
  intro js
  induction js with
  | nil => rfl
  | cons j js ih =>
    rw [List.foldl_cons]
    have hstep : flmStep a b ahi bhi i best j = best := by
      unfold flmStep
      exact if_neg (Nat.not_lt.mpr (h j))
    rw [hstep]
    exact ih

theorem flmInner_keep {α : Type} [DecidableEq α] (a b : List α) (ahi blo bhi : Nat)
    (best : Nat × Nat × Nat) (h : ∀ i j, matchLen a b ahi bhi i j ≤ best.2.2) :
    ∀ is : List Nat, is.foldl (flmInner a b ahi blo bhi) best = best := by
  intro is
  induction is with
  | nil => rfl
  | cons i is ih =>
    rw [List.foldl_cons]
    have hstep : flmInner a b ahi blo bhi best i = best := by
      unfold flmInner
      exact flmStep_keep a b ahi bhi i best (h i) _
    rw [hstep]
    exact ih

theorem find_longest_match_self {α : Type} [DecidableEq α] (a : List α) (h : a ≠ []) :
    find_longest_match a a 0 a.length 0 a.length = (0, 0, a.length) := by
  obtain ⟨n, hn⟩ : ∃ n, a.length = n + 1 := by
    cases ha : a with
    | nil => exact absurd ha h
    | cons c rest => exact ⟨rest.length, by simp [ha]⟩
  have hpos : 0 < a.length := by omega
  have hr0 : List.range' 0 (a.length - 0) = 0 :: List.range' 1 n := by
    rw [Nat.sub_zero, hn, List.range'_succ]
  have hbound : ∀ i j,
      matchLen a a a.length a.length i j ≤ ((0, 0, a.length) : Nat × Nat × Nat).2.2 :=
    fun i j => Nat.le_trans (matchLen_le a a a.length a.length i j) (Nat.sub_le _ _)
  have e2 : flmStep a a a.length a.length 0 (0, 0, 0) 0 = (0, 0, a.length) := by
    unfold flmStep
    rw [matchLen_self_zero]
    simp [hpos]
  have e1 : flmInner a a a.length 0 a.length (0, 0, 0) 0 = (0, 0, a.length) := by
    unfold flmInner
    rw [hr0, List.foldl_cons, e2]
    exact flmStep_keep a a a.length a.length 0 (0, 0, a.length) (fun j => hbound 0 j) _
  unfold find_longest_match
  rw [hr0, List.foldl_cons, e1]
  exact flmInner_keep a a a.length 0 a.length (0, 0, a.length) hbound _

theorem get_matching_blocks_self {α : Type} [DecidableEq α] (a : List α) (h : a ≠ []) :
    get_matching_blocks a a = [(0, 0, a.length), (a.length, a.length, 0)] := by
  have h0 : a.length ≠ 0 := by
    cases a with
    | nil => exact absurd rfl h
    | cons c rest => simp
  unfold get_matching_blocks
  show matchingBlocksF a a ((a.length + a.length) + 1) 0 a.length 0 a.length ++
      [(a.length, a.length, 0)] = _
  simp only [matchingBlocksF, find_longest_match_self a h]
  simp [h0]

theorem get_opcodes_self {α : Type} [DecidableEq α] (a : List α) (h : a ≠ []) :
    get_opcodes a a = [(OpTag.equal, 0, a.length, 0, a.length)] := by
  have h0 : a.length ≠ 0 := by
    cases a with
    | nil => exact absurd rfl h
    | cons c rest => simp
  unfold get_opcodes
  rw [get_matching_blocks_self a h]
  simp only [opcodesGo]
  simp [h0, Nat.lt_irrefl]

theorem splitChar_ne_nil (sep : Char) (t : Text) : splitChar sep t ≠ [] := by
  cases t with
  | nil => simp [splitChar]
  | cons c rest =>
    simp only [splitChar]
    cases splitChar sep rest with
    | nil => simp
    | cons h t =>
      by_cases hcs : c = sep <;> simp [hcs]

theorem numberRowsGo_map_kind (rows : List (RowKind × Text × Text)) : ∀ l r : Nat,
    (numberRowsGo l r rows).map DiffRow.kind = rows.map (fun q => q.1) := by
  induction rows with
  | nil => intro l r; rfl
  | cons q rest ih =>
    intro l r
    obtain ⟨k, lh, rh⟩ := q
    simp only [numberRowsGo, List.map_cons]
    rw [ih]

theorem side_by_side_diff_self_kind (t : Text) :
    ∀ row ∈ side_by_side_diff t t, row.kind = RowKind.equal := by
  intro row hrow
  have hkind : row.kind ∈ (side_by_side_diff t t).map DiffRow.kind :=
    List.mem_map_of_mem DiffRow.kind hrow
  rw [side_by_side_diff, numberRowsGo_map_kind] at hkind
  have hL : splitChar '\n' (normalize_newlines t) ≠ [] := splitChar_ne_nil _ _
  rw [diff_rows] at hkind
  simp only [get_opcodes_self _ hL, List.map_cons, List.map_nil, List.flatten_cons,
    List.flatten_nil, List.append_nil] at hkind
  simp only [rowsForOpcode, List.map_map] at hkind
  obtain ⟨k, -, hk⟩ := List.mem_map.mp hkind
  exact hk.symm

/-- Claim C3: diffing any text against itself produces only "equal" rows
and zero "changed" rows. -/
theorem C3_identical_all_equal (t : Text) :
    ((side_by_side_diff t t).all (fun row => decide (row.kind = RowKind.equal)) = true) ∧
      ((side_by_side_diff t t).countP (fun row => decide (row.kind = RowKind.change)) = 0) := by
  constructor
  · rw [List.all_eq_true]
    intro row hrow
    exact decide_eq_true (side_by_side_diff_self_kind t row hrow)
  · rw [List.countP_eq_zero]
    intro row hrow
    have := side_by_side_diff_self_kind t row hrow
    simp [this]

/-! ## Changed rows carry the combined rendering in both cells: claim C10 -/

theorem numberRowsGo_mem (rows : List (RowKind × Text × Text)) :
    ∀ (l r : Nat) (row : DiffRow), row ∈ numberRowsGo l r rows →
      ∃ q ∈ rows, row.kind = q.1 ∧ row.left = q.2.1 ∧ row.right = q.2.2 := by
  induction rows with
  | nil => intro l r row h; simp [numberRowsGo] at h
  | cons q rest ih =>
    intro l r row h
    obtain ⟨k, lh, rh⟩ := q
    simp only [numberRowsGo, List.mem_cons] at h
    rcases h with h | h
    · subst h
      exact ⟨(k, lh, rh), List.mem_cons_self _ _, rfl, rfl, rfl⟩
    · obtain ⟨p, hp, hfields⟩ := ih _ _ row h
      exact ⟨p, List.mem_cons_of_mem _ hp, hfields⟩

theorem rowsForOpcode_change_cells (lines1 lines2 : List Text)
    (op : OpTag × Nat × Nat × Nat × Nat) (q : RowKind × Text × Text)
    (hq : q ∈ rowsForOpcode lines1 lines2 op) (hk : q.1 = RowKind.change) :
    q.2.1 = q.2.2 := by
  obtain ⟨tag, i1, i2, j1, j2⟩ := op
  cases tag
  case equal =>
    simp only [rowsForOpcode] at hq
    obtain ⟨k, -, hf⟩ := List.mem_map.mp hq
    rw [← hf] at hk
    simp at hk
  all_goals
    simp only [rowsForOpcode] at hq
    obtain ⟨idx, -, hf⟩ := List.mem_map.mp hq
    split at hf
    · rw [← hf] at hk
      simp at hk
    · rw [← hf]

/-- Claim C10: every row that `side_by_side_diff` marks as changed carries
the identical combined rendering (deletions and insertions together) in its
left content cell and its right content cell. -/
theorem C10_change_rows_share_cells (t1 t2 : Text) :
    (side_by_side_diff t1 t2).all
      (fun row => decide (row.kind = RowKind.change → row.left = row.right)) = true := by
  rw [List.all_eq_true]
  intro row hrow
  apply decide_eq_true
  intro hk
  obtain ⟨q, hq, hkind, hleft, hright⟩ := numberRowsGo_mem (diff_rows t1 t2) 1 1 row hrow
  simp only [diff_rows, List.mem_flatten, List.mem_map] at hq
  obtain ⟨s, ⟨op, hop, hops⟩, hqs⟩ := hq
  subst hops
  have hq1 : q.1 = RowKind.change := by rw [← hkind]; exact hk
  have := rowsForOpcode_change_cells _ _ op q hqs hq1
  rw [hleft, hright, this]

/-! ## Approval analysis error boundary: claim C7 -/

/-- Claim C7: every failure of the external completion call is caught at the
boundary and converted to the human-readable string
`"Error analyzing documents: " + str(e)`; the function is total, so no
exception escapes to the caller. -/
theorem C7_error_contained (call : Text → Except Text (List Text))
    (circular_text proposal_text e : Text)
    (h : call (approvalPrompt circular_text proposal_text) = Except.error e) :
    analyze_document_approval call circular_text proposal_text =
      ("Error analyzing documents: ".data) ++ e := by
  unfold analyze_document_approval
  rw [h]

/-- Witness for `C7_error_contained` with a concrete failing call. -/
theorem C7_error_contained_witness :
    analyze_document_approval (fun _ => Except.error ("boom".data)) [] [] =
      ("Error analyzing documents: ".data) ++ ("boom".data) :=
  C7_error_contained (fun _ => Except.error ("boom".data)) [] [] ("boom".data) rfl

/-! ## Decision banner: claim C8 -/

/-- Claim C8 (counterexample): the response `c8Input` has no line starting
with the literal label `"Decision:"`, so the claim's extraction rule calls
it indeterminate — yet the code's substring scan shows the APPROVED banner. -/
theorem C8_counterexample :
    decisionBanner c8Input = some true ∧ specDecisionLabel c8Input = none := by
  decide

/-- Claim C8 (amended): the decision banner comes from substring containment
in the uppercased response, not from a labelled line: APPROVED wins whenever
`"APPROVED"` occurs anywhere, else REJECTED when `"REJECTED"` occurs, and
only when neither substring occurs is no banner shown (indeterminate). -/
theorem C8_amended_substring_banner (analysis_result : Text) :
    (decisionBanner analysis_result = some true ↔
      substrIn ("APPROVED".data) (pyUpper analysis_result) = true) ∧
      (decisionBanner analysis_result = some false ↔
        (substrIn ("APPROVED".data) (pyUpper analysis_result) = false ∧
          substrIn ("REJECTED".data) (pyUpper analysis_result) = true)) ∧
      (decisionBanner analysis_result = none ↔
        (substrIn ("APPROVED".data) (pyUpper analysis_result) = false ∧
          substrIn ("REJECTED".data) (pyUpper analysis_result) = false)) := by
  unfold decisionBanner
  by_cases hA : substrIn ("APPROVED".data) (pyUpper analysis_result) = true
  · simp [hA]
  · have hA' : substrIn ("APPROVED".data) (pyUpper analysis_result) = false := by
      cases hx : substrIn ("APPROVED".data) (pyUpper analysis_result)
      · rfl
      · exact absurd hx hA
    by_cases hR : substrIn ("REJECTED".data) (pyUpper analysis_result) = true
    · simp [hA', hR]
    · have hR' : substrIn ("REJECTED".data) (pyUpper analysis_result) = false := by
        cases hx : substrIn ("REJECTED".data) (pyUpper analysis_result)
        · rfl
        · exact absurd hx hR
      simp [hA', hR']

/-! ## PDF extraction: claim C9 -/

/-- Claim C9 (counterexample): each page contributes its text followed by a
newline (a terminator), so a single page "hello" extracts to `"hello\n"`,
which differs from joining the pages with a newline separator. -/
theorem C9_counterexample :
    extract_text_from_pdf [some ("hello".data)] = ("hello\n".data) ∧
      extract_text_from_pdf [some ("hello".data)] ≠
        List.intercalate ("\n".data) [("hello".data)] := by
  decide

theorem extract_foldl (ps : List (Option Text)) : ∀ acc : Text,
    ps.foldl (fun text p => text ++ (p.getD []) ++ [('\n')]) acc =
      acc ++ (ps.map (fun p => (p.getD []) ++ [('\n')])).flatten := by
  induction ps with
  | nil => intro acc; simp
  | cons p ps ih =>
    intro acc
    simp only [List.foldl_cons, List.map_cons, List.flatten_cons]
    rw [ih]
    simp [List.append_assoc]

/-- Claim C9 (amended): the extractor appends every page's text followed by
one newline (newline as terminator, not separator), and a page with no
extractable text (`None`) contributes exactly the empty string — replacing a
`None` page by an empty-text page leaves the output unchanged, and no page
makes the extraction fail. -/
theorem C9_amended_pdf_pages (pages : List (Option Text)) :
    (extract_text_from_pdf pages =
      (pages.map (fun p => (p.getD []) ++ [('\n')])).flatten) ∧
      ∀ pre post : List (Option Text),
        extract_text_from_pdf (pre ++ none :: post) =
          extract_text_from_pdf (pre ++ some ([]) :: post) := by
  constructor
  · unfold extract_text_from_pdf
    rw [extract_foldl]
    simp
  · intro pre post
    unfold extract_text_from_pdf
    rw [extract_foldl, extract_foldl]
    simp

/-! ## Chunker: claim C6 (spec-modelled) -/

theorem joinSep_cons_of_ne_nil (sep x : Text) (L : List Text) (h : L ≠ []) :
    joinSep sep (x :: L) = x ++ sep ++ joinSep sep L := by
  cases L with
  | nil => exact absurd rfl h
  | cons y t => rfl

theorem joinSep_cons_head (sep : Text) (c : Char) (h : Text) (t' : List Text) :
    joinSep sep ((c :: h) :: t') = c :: joinSep sep (h :: t') := by
  cases t' with
  | nil => rfl
  | cons y t'' => simp [joinSep]

theorem joinSep_append (sep : Text) : ∀ xs ys : List Text, xs ≠ [] → ys ≠ [] →
    joinSep sep (xs ++ ys) = joinSep sep xs ++ sep ++ joinSep sep ys := by
  intro xs
  induction xs with
  | nil => intro ys h; exact absurd rfl h
  | cons x xs ih =>
    intro ys hxs hys
    cases xs with
    | nil =>
      cases ys with
      | nil => exact absurd rfl hys
      | cons y ys' => simp [joinSep]
    | cons x2 xs' =>
      have hh := ih ys (by simp) hys
      simp only [List.cons_append] at hh ⊢
      simp only [joinSep]
      rw [hh]
      simp [List.append_assoc]

theorem splitParas_spec : ∀ n, ∀ t : Text, t.length ≤ n →
    splitParas t ≠ [] ∧ joinSep paraSep (splitParas t) = t := by
  intro n
  induction n with
  | zero =>
    intro t ht
    have h0 : t = [] := List.length_eq_zero.mp (Nat.le_zero.mp ht)
    subst h0
    exact ⟨by simp [splitParas], rfl⟩
  | succ n ih =>
    intro t ht
    cases t with
    | nil => exact ⟨by simp [splitParas], rfl⟩
    | cons c t2 =>
      cases t2 with
      | nil => exact ⟨by simp [splitParas], rfl⟩
      | cons d rest =>
        by_cases hnn : c = '\n' ∧ d = '\n'
        · obtain ⟨hc, hd⟩ := hnn
          subst hc
          subst hd
          obtain ⟨hne, hjoin⟩ := ih rest (by simp at ht; omega)
          obtain ⟨h1, t1, hsplit⟩ : ∃ h1 t1, splitParas rest = h1 :: t1 := by
            cases hs : splitParas rest with
            | nil => exact absurd hs hne
            | cons a b => exact ⟨a, b, rfl⟩
          constructor
          · simp [splitParas]
          · simp only [splitParas, if_pos (And.intro rfl rfl), hsplit]
            rw [hsplit] at hjoin
            show ([] : Text) ++ paraSep ++ joinSep paraSep (h1 :: t1) = '\n' :: '\n' :: rest
            rw [hjoin]
            rfl
        · obtain ⟨hne, hjoin⟩ := ih (d :: rest) (by simp at ht ⊢; omega)
          obtain ⟨h1, t1, hsplit⟩ : ∃ h1 t1, splitParas (d :: rest) = h1 :: t1 := by
            cases hs : splitParas (d :: rest) with
            | nil => exact absurd hs hne
            | cons a b => exact ⟨a, b, rfl⟩
          constructor
          · simp [splitParas, hnn, hsplit]
          · simp only [splitParas, if_neg hnn, hsplit]
            rw [joinSep_cons_head]
            rw [hsplit] at hjoin
            rw [hjoin]

theorem splitParas_ne_nil (t : Text) : splitParas t ≠ [] :=
  (splitParas_spec t.length t (Nat.le_refl _)).1

theorem joinSep_splitParas (t : Text) : joinSep paraSep (splitParas t) = t :=
  (splitParas_spec t.length t (Nat.le_refl _)).2

theorem chunkGo_ne_nil (budget : Nat) :
    ∀ (ps curRev : List Text) (curLen : Nat), chunkGo budget curRev curLen ps ≠ [] := by
  intro ps
  induction ps with
  | nil => intro curRev curLen; simp [chunkGo]
  | cons p ps ih =>
    intro curRev curLen
    simp only [chunkGo]
    split
    · exact ih _ _
    · simp

theorem chunkGo_join (budget : Nat) :
    ∀ (ps curRev : List Text) (curLen : Nat), curRev ≠ [] →
      joinSep paraSep ((chunkGo budget curRev curLen ps).map (joinSep paraSep)) =
        joinSep paraSep (curRev.reverse ++ ps) := by
  intro ps
  induction ps with
  | nil =>
    intro curRev curLen h
    simp [chunkGo, joinSep]
  | cons p ps ih =>
    intro curRev curLen h
    simp only [chunkGo]
    split
    · rw [ih (p :: curRev) _ (by simp)]
      congr 1
      simp
    · simp only [List.map_cons]
      have hmap_ne : (chunkGo budget [p] p.length ps).map (joinSep paraSep) ≠ [] := by
        intro hmap
        exact chunkGo_ne_nil budget ps [p] p.length (List.map_eq_nil_iff.mp hmap)
      rw [joinSep_cons_of_ne_nil _ _ _ hmap_ne, ih [p] p.length (by simp)]
      rw [show ([p] : List Text).reverse ++ ps = p :: ps by simp]
      rw [joinSep_append paraSep curRev.reverse (p :: ps) (by simp [h]) (by simp)]

/-- Claim C6 (spec-modelled): for every text and every chunk budget of at
least 1, the Chunker splits only at paragraph boundaries and joining its
chunks with the paragraph separator reproduces the input exactly. -/
theorem C6_chunker_roundtrip (t : Text) (budget : Nat) (h : 1 ≤ budget) :
    joinSep paraSep (chunk_text budget t) = t := by
  unfold chunk_text
  cases hs : splitParas t with
  | nil => exact absurd hs (splitParas_ne_nil t)
  | cons p ps =>
    rw [chunkGo_join budget ps [p] p.length (by simp)]
    rw [show ([p] : List Text).reverse ++ ps = p :: ps by simp]
    rw [← hs, joinSep_splitParas]

/-- Witness for `C6_chunker_roundtrip` at a concrete two-paragraph text and
budget 1 (each paragraph becomes its own chunk). -/
theorem C6_chunker_roundtrip_witness :
    joinSep paraSep (chunk_text 1 ("a\n\nbb".data)) = ("a\n\nbb".data) :=
  C6_chunker_roundtrip ("a\n\nbb".data) 1 (Nat.le_refl 1)
